import Mathlib

/-!
Shallow embedding of the dependency-injection container `Injector` from
`laba7_OOP.py` (the only subsystem of the repository covered by the
specification), together with proofs of the specification claims.

Modelling conventions:
* Python types (interface tokens, concrete classes, parameter declared types)
  are identifiers of type `Nat`; parameter names are also `Nat` identifiers,
  with the distinguished identifier `selfName` playing the role of the
  literal name `self` that `_resolve_constructor_dependencies` skips.
* Python dictionaries are association lists over `Nat` keys with dictionary
  update semantics (`insertA` overwrites in place, appends new keys at the
  end, preserving insertion order, exactly like a CPython `dict`).
* Object identity is modelled by allocation: every constructor call produces
  `Value.obj i` for a fresh counter value `i`, and a heap in the container
  state records each allocated object together with the keyword arguments
  its constructor received.  Two Python objects are `is`-identical exactly
  when the model values carry the same allocation id.
* Python exceptions are an error type threaded next to the state: mutation
  performed before a `raise` survives, as in Python, so a result is always
  a pair of an `Except` outcome and the post-call state.
* The unbounded recursion of `get_instance` is made total with a fuel
  parameter; running out of fuel is the distinguished outcome
  `Err.fuelExhausted` (the analogue of Python's `RecursionError`).
-/

/-- The three lifetime policies of the container (`class LifeStyle(Enum)`). -/
inductive LifeStyle where
  | PerRequest
  | Scoped
  | Singleton
deriving DecidableEq, Repr

/-- The Python exceptions the container can raise, plus the fuel artifact. -/
inductive Err where
  | injectorAlreadyConfigured  -- InjectorAlreadyConfiguredError
  | unregisteredDependency     -- UnregisteredDependencyError
  | typeError                  -- TypeError
  | valueError                 -- ValueError
  | runtimeError               -- RuntimeError
  | keyError                   -- KeyError (dict subscript on a missing key)
  | fuelExhausted              -- model artifact: recursion-depth bound hit
deriving DecidableEq, Repr

/-- A runtime value: either a literal (an explicitly supplied parameter
value) or a reference to an allocated object, identified by its id. -/
inductive Value where
  | lit (n : Nat)
  | obj (id : Nat)
deriving DecidableEq, Repr

/-- The producer stored in a registration record: a concrete class or a
factory function (`registration["class_type"]`). -/
inductive ClassOrFn where
  | cls (c : Nat)
  | fn (f : Nat)
deriving DecidableEq, Repr

/-- The dynamic value passed as the `class_type` argument of `register`:
a class, a plain callable, Python `None`, or some other non-callable
non-class object. -/
inductive RegArg where
  | cls (c : Nat)
  | fn (f : Nat)
  | noneArg
  | other
deriving DecidableEq, Repr

/-- Python `callable(x)`: classes and functions are callable. -/
def RegArg.callable : RegArg → Bool
  | .cls _ => true
  | .fn _ => true
  | .noneArg => false
  | .other => false

/-- Python `isinstance(x, type)`: only classes are types. -/
def RegArg.isType : RegArg → Bool
  | .cls _ => true
  | _ => false

/-- Python `x is None`. -/
def RegArg.isNoneV : RegArg → Bool
  | .noneArg => true
  | _ => false

/-- Association-list lookup, the model of `d[k]` / `k in d` on a `dict`. -/
def lookupA {α : Type} (k : Nat) : List (Nat × α) → Option α
  | [] => none
  | (k', v) :: rest => if k = k' then some v else lookupA k rest

/-- Association-list update with Python `dict` assignment semantics:
overwrite in place when the key exists, append otherwise. -/
def insertA {α : Type} (k : Nat) (v : α) : List (Nat × α) → List (Nat × α)
  | [] => [(k, v)]
  | (k', v') :: rest =>
      if k = k' then (k, v) :: rest else (k', v') :: insertA k v rest

/-- Build a dictionary from a key/value list, later occurrences of a key
winning, as a Python `dict` literal or constructor would. -/
def dictOf {α : Type} (ps : List (Nat × α)) : List (Nat × α) :=
  ps.foldl (fun acc kv => insertA kv.1 kv.2 acc) []

/-- Python `d.update(ps)` applied to dictionary `d`. -/
def updateAll (d ps : List (Nat × Value)) : List (Nat × Value) :=
  ps.foldl (fun acc kv => insertA kv.1 kv.2 acc) d

/-- One registration record, the dictionary built by `Injector.register`. -/
structure Registration where
  class_type : ClassOrFn
  life_style : Option LifeStyle
  params : List (Nat × Value)
  is_factory : Bool
deriving DecidableEq, Repr

/-- A heap record for an allocated object: its concrete class and the
keyword arguments its constructor was invoked with. -/
structure ObjRec where
  cls : Nat
  args : List (Nat × Value)
deriving DecidableEq, Repr

/-- The mutable state of an `Injector`. -/
structure St where
  registrations : List (Nat × Registration)
  singleton_cache : List (Nat × Value)
  scoped_cache : Option (List (Nat × Value))
  in_scope : Bool
  next_id : Nat
  heap : List (Nat × ObjRec)
deriving DecidableEq, Repr

/-- `Injector.__init__`: empty registry, empty singleton cache, no scoped
cache, not in a scope. -/
def St.init : St :=
  { registrations := []
    singleton_cache := []
    scoped_cache := none
    in_scope := false
    next_id := 0
    heap := [] }

/-- What a factory function does when invoked with no arguments: either
construct and return a fresh object of some class, or return a fixed
already-existing value. -/
inductive Factory where
  | newObj (c : Nat)
  | constVal (v : Value)

/-- The static world the container lives in: constructor signatures
readable by `get_type_hints(cls.__init__)` (name/declared-type pairs in
declaration order, possibly containing the `self` entry), the nominal
`issubclass` relation, and the behaviour of each factory function. -/
structure Env where
  hints : Nat → List (Nat × Nat)
  subclass : Nat → Nat → Bool
  factories : Nat → Factory

/-- The identifier standing for the Python parameter name `self`. -/
def selfName : Nat := 0

/-- Allocate a fresh object of class `c` with constructor arguments
`args`: the model of executing `cls(**resolved_deps)`. -/
def allocObj (st : St) (c : Nat) (args : List (Nat × Value)) :
    Except Err Value × St :=
  (.ok (.obj st.next_id),
   { st with
      next_id := st.next_id + 1
      heap := insertA st.next_id ⟨c, args⟩ st.heap })

/-- Invoke a stored producer with no arguments (`factory()` in
`get_instance`).  A function runs its factory behaviour.  A class stored
as a factory is called with zero arguments: this succeeds, allocating a
fresh instance, exactly when its constructor has no parameter besides
`self`; otherwise Python raises `TypeError` for a missing argument. -/
def runProducer (env : Env) (st : St) : ClassOrFn → Except Err Value × St
  | .fn f =>
      match env.factories f with
      | .newObj c => allocObj st c []
      | .constVal v => (.ok v, st)
  | .cls c =>
      if (env.hints c).all (fun pr => pr.1 == selfName) then allocObj st c []
      else (.error .typeError, st)

/-- `Injector.register`.  First the open-scope guard; then the Python
code tests `callable(class_type) and life_style is None` (the factory
branch — note a class is callable, so a class passed without a life style
lands here too) and then `class_type is not None and
isinstance(class_type, type) and life_style is not None` (the class-mode
branch, guarded by the `issubclass` check); every other argument shape
raises `ValueError`.  The two boolean conditions are disjoint and
exhaustive over the constructor/option cases, so they are rendered as one
full case analysis: callable holds for `.cls`/`.fn`, `isinstance(_, type)`
only for `.cls`. -/
def register (env : Env) (st : St) (interface_type : Nat)
    (class_type : RegArg) (life_style : Option LifeStyle)
    (params : Option (List (Nat × Value))) : Except Err Unit × St :=
  if st.in_scope then
    (.error .injectorAlreadyConfigured, st)
  else
    match class_type, life_style with
    | .cls c, none =>
        -- callable and no life style: factory branch (a class is callable)
        (.ok (),
         { st with
            registrations :=
              insertA interface_type
                ⟨.cls c, none, dictOf (params.getD []), true⟩
                st.registrations })
    | .fn f, none =>
        -- callable and no life style: factory branch
        (.ok (),
         { st with
            registrations :=
              insertA interface_type
                ⟨.fn f, none, dictOf (params.getD []), true⟩
                st.registrations })
    | .cls c, some ls =>
        -- a type together with a life style: class-mode branch
        if !env.subclass c interface_type then (.error .typeError, st)
        else
          (.ok (),
           { st with
              registrations :=
                insertA interface_type
                  ⟨.cls c, some ls, dictOf (params.getD []), false⟩
                  st.registrations })
    | .fn _, some _ => (.error .valueError, st)
    | .noneArg, none => (.error .valueError, st)
    | .noneArg, some _ => (.error .valueError, st)
    | .other, none => (.error .valueError, st)
    | .other, some _ => (.error .valueError, st)

/-- `Injector._get_active_params`: the union of the `params` dictionaries
of all current registrations, in registration order, later registrations
overriding earlier ones for a shared name (`params.update(custom_params)`
inside the loop; empty dictionaries are skipped by the truthiness test). -/
def get_active_params (st : St) : List (Nat × Value) :=
  st.registrations.foldl
    (fun acc pr =>
      if pr.2.params.isEmpty then acc else updateAll acc pr.2.params) []

/-- `Injector._resolve_constructor_dependencies`, parameterised by the
recursive resolver `recur` (standing for `self.get_instance`).  Walks the
constructor hints in order, building the `deps` dictionary: skip `self`;
if the declared type is registered, resolve it recursively; else if the
name occurs in the active-params union, take that literal; else raise
`UnregisteredDependencyError`. -/
def resolve_constructor_dependencies (env : Env)
    (recur : St → Nat → Except Err Value × St) :
    St → List (Nat × Nat) → List (Nat × Value) →
    Except Err (List (Nat × Value)) × St
  | st, [], acc => (.ok acc, st)
  | st, (param_name, param_type) :: rest, acc =>
      if param_name = selfName then
        resolve_constructor_dependencies env recur st rest acc
      else if (lookupA param_type st.registrations).isSome then
        match recur st param_type with
        | (.ok v, st') =>
            resolve_constructor_dependencies env recur st' rest
              (insertA param_name v acc)
        | (.error e, st') => (.error e, st')
      else
        match lookupA param_name (get_active_params st) with
        | some v =>
            resolve_constructor_dependencies env recur st rest
              (insertA param_name v acc)
        | none => (.error .unregisteredDependency, st)

/-- `Injector._create_instance`, parameterised by the recursive resolver:
look the registration up again, resolve the constructor dependencies of
its class, overlay the registration's own `params`
(`resolved_deps.update(manual_params)`), and invoke the constructor.
The `class_type`-is-a-function case is unreachable from `get_instance`
(factories never come here); calling a bare function with the keyword
arguments would raise `TypeError` unless there are none, in which case it
behaves as a zero-argument call of the producer. -/
def create_instance (env : Env)
    (recur : St → Nat → Except Err Value × St)
    (st : St) (interface_type : Nat) : Except Err Value × St :=
  match lookupA interface_type st.registrations with
  | none => (.error .keyError, st)
  | some reg =>
      match reg.class_type with
      | .cls c =>
          match resolve_constructor_dependencies env recur st
              (env.hints c) [] with
          | (.ok deps, st1) => allocObj st1 c (updateAll deps reg.params)
          | (.error e, st1) => (.error e, st1)
      | .fn f =>
          if (updateAll [] reg.params).isEmpty then runProducer env st (.fn f)
          else (.error .typeError, st)

/-- `Injector.get_instance`, with a fuel bound on the recursion depth.
Registry lookup, factory short-circuit, then the three lifetime policies:
singleton cache, scoped cache behind the open-scope guard, fresh
construction for `PerRequest`, and the unknown-life-style `ValueError`
fallthrough. -/
def get_instance (env : Env) : Nat → St → Nat → Except Err Value × St
  | 0, st, _ => (.error .fuelExhausted, st)
  | fuel + 1, st, interface_type =>
      match lookupA interface_type st.registrations with
      | none => (.error .unregisteredDependency, st)
      | some reg =>
          if reg.is_factory then
            runProducer env st reg.class_type
          else
            match reg.life_style with
            | some .Singleton =>
                match lookupA interface_type st.singleton_cache with
                | some v => (.ok v, st)
                | none =>
                    match create_instance env
                        (fun s t => get_instance env fuel s t)
                        st interface_type with
                    | (.ok v, st') =>
                        (.ok v,
                         { st' with
                            singleton_cache :=
                              insertA interface_type v st'.singleton_cache })
                    | (.error e, st') => (.error e, st')
            | some .Scoped =>
                match st.scoped_cache with
                | none => (.error .runtimeError, st)
                | some sc =>
                    match lookupA interface_type sc with
                    | some v => (.ok v, st)
                    | none =>
                        match create_instance env
                            (fun s t => get_instance env fuel s t)
                            st interface_type with
                        | (.ok v, st') =>
                            match st'.scoped_cache with
                            | some sc' =>
                                (.ok v,
                                 { st' with
                                    scoped_cache :=
                                      some (insertA interface_type v sc') })
                            | none => (.error .typeError, st')
                        | (.error e, st') => (.error e, st')
            | some .PerRequest =>
                create_instance env
                  (fun s t => get_instance env fuel s t) st interface_type
            | none => (.error .valueError, st)

/-- Entering `Injector.scope()`: the code before the `yield` — the
non-reentrancy guard, then setting the flag and allocating a fresh empty
scoped cache. -/
def openScope (st : St) : Except Err Unit × St :=
  if st.in_scope then (.error .runtimeError, st)
  else (.ok (), { st with in_scope := true, scoped_cache := some [] })

/-- Leaving `Injector.scope()`: the `finally` block — unconditionally
discard the scoped cache and clear the flag. -/
def closeScope (st : St) : St :=
  { st with scoped_cache := none, in_scope := false }

/-- `with injector.scope(): body` — if entering fails the body never runs
and the state is untouched; otherwise the `finally` teardown runs on every
exit path of the body, normal or exceptional. -/
def withScope {α : Type} (st : St) (body : St → Except Err α × St) :
    Except Err α × St :=
  match openScope st with
  | (.ok _, st') =>
      let r := body st'
      (r.1, closeScope r.2)
  | (.error e, st') => (.error e, st')

/-- One public operation on the container. -/
inductive Op where
  | registerOp (interface_type : Nat) (class_type : RegArg)
      (life_style : Option LifeStyle) (params : Option (List (Nat × Value)))
  | getInstanceOp (fuel : Nat) (interface_type : Nat)
  | openScopeOp
  | closeScopeOp
deriving DecidableEq, Repr

/-- The state after performing one public operation (the operation's
return value or exception is dropped; in Python the state mutation
survives either way). -/
def step (env : Env) (st : St) : Op → St
  | .registerOp i ct ls ps => (register env st i ct ls ps).2
  | .getInstanceOp fuel i => (get_instance env fuel st i).2
  | .openScopeOp => (openScope st).2
  | .closeScopeOp => closeScope st

/-- The state after a sequence of public operations. -/
def run (env : Env) (ops : List Op) (st : St) : St :=
  ops.foldl (step env) st

/-! ## The registration well-formedness invariant (claim C10's shape) -/

/-- A stored registration is well formed when it is factory-mode with no
life style, or class-mode (a concrete class producer) with a life style. -/
def Registration.wfShape (r : Registration) : Bool :=
  (r.is_factory && r.life_style.isNone) ||
  (!r.is_factory && r.life_style.isSome &&
    (match r.class_type with | .cls _ => true | .fn _ => false))

/-- Every stored registration of the container is well formed. -/
def RegWF (st : St) : Prop :=
  ∀ p ∈ st.registrations, p.2.wfShape = true

/-! ## The preservation relation of one resolution call -/

/-- What any single `get_instance` / `_create_instance` /
`_resolve_constructor_dependencies` call preserves about the container
state: registrations, the scope flag and the presence of the scoped cache
never change; the allocation counter never decreases; cache entries are
never removed or overwritten, and (for well-formed registries) every new
scoped-cache entry is a freshly constructed object. -/
def PresA (st st' : St) : Prop :=
  st'.registrations = st.registrations ∧
  st'.in_scope = st.in_scope ∧
  st.next_id ≤ st'.next_id ∧
  (st.scoped_cache = none → st'.scoped_cache = none) ∧
  (∀ sc, st.scoped_cache = some sc → ∃ sc',
      st'.scoped_cache = some sc' ∧
      (∀ k v, lookupA k sc = some v → lookupA k sc' = some v) ∧
      (RegWF st → ∀ p, p ∈ sc' → p ∈ sc ∨
        ∃ i, p.2 = Value.obj i ∧ st.next_id ≤ i ∧ i < st'.next_id)) ∧
  (∀ k v, lookupA k st.singleton_cache = some v →
      lookupA k st'.singleton_cache = some v)

/-! ## The scope-state invariant (claim C6's shape) -/

/-- The scoped cache is present exactly when the scope flag is set. -/
def ScInv (st : St) : Prop := st.scoped_cache.isSome = st.in_scope

/-! ## Scoped-cache value bounds (for claim C5) -/

/-- All values in the current scoped cache are objects allocated at or
after counter value `n` (which is itself at most the current counter). -/
def ScopedVLB (n : Nat) (st : St) : Prop :=
  n ≤ st.next_id ∧
  ∀ sc, st.scoped_cache = some sc →
    ∀ p ∈ sc, ∃ i, p.2 = Value.obj i ∧ n ≤ i

/-- All values in the current scoped cache are objects allocated strictly
before the current counter value. -/
def ScopedVUB (st : St) : Prop :=
  ∀ sc, st.scoped_cache = some sc →
    ∀ p ∈ sc, ∃ i, p.2 = Value.obj i ∧ i < st.next_id

/-! ## Specification-side resolver (refinement target for claim C3) -/

/-- Resolution of one constructor parameter, written from the words of
the specification, section 4.2 step 4: if the declared type matches a
registered service type, resolve recursively; else, if the name is found
among the union of explicit parameters across all current registrations,
use that literal; else fail with the unregistered-dependency error. -/
def spec_resolve_param (recur : St → Nat → Except Err Value × St)
    (st : St) (param_name param_type : Nat) : Except Err Value × St :=
  if (lookupA param_type st.registrations).isSome then recur st param_type
  else
    match lookupA param_name (get_active_params st) with
    | some v => (.ok v, st)
    | none => (.error .unregisteredDependency, st)

/-- The specification-side walk over the constructor parameter list,
applying `spec_resolve_param` to each parameter in order and collecting
the resolved arguments. -/
def spec_resolve_params (recur : St → Nat → Except Err Value × St) :
    St → List (Nat × Nat) → List (Nat × Value) →
    Except Err (List (Nat × Value)) × St
  | st, [], acc => (.ok acc, st)
  | st, (param_name, param_type) :: rest, acc =>
      match spec_resolve_param recur st param_name param_type with
      | (.ok v, st') =>
          spec_resolve_params recur st' rest (insertA param_name v acc)
      | (.error e, st') => (.error e, st')

/-! ## Concrete fixtures for witnesses and counterexamples -/

/-- A small concrete world: class 1 has constructor parameters
`(self, p5 : T20, p6 : T77)`, class 3 has `(self, p5 : T20)`, every other
class has a parameterless constructor; every class nominally satisfies
every interface; every factory returns the literal `0`. -/
def envW : Env :=
  { hints := fun c =>
      if c = 1 then [(selfName, 99), (5, 20), (6, 77)]
      else if c = 3 then [(selfName, 99), (5, 20)]
      else []
    subclass := fun _ _ => true
    factories := fun _ => Factory.constVal (Value.lit 0) }

/-- Type 10 bound to class 1 (Singleton), type 20 bound to class 2
(Singleton); class 1 needs a `T20` (satisfiable) and a `T77`
(unsatisfiable), so resolving type 10 caches the type-20 dependency and
then fails. -/
def stC2 : St :=
  { registrations :=
      [(10, ⟨.cls 1, some .Singleton, [], false⟩),
       (20, ⟨.cls 2, some .Singleton, [], false⟩)]
    singleton_cache := []
    scoped_cache := none
    in_scope := false
    next_id := 0
    heap := [] }

/-- Type 10 bound to class 2 with the Scoped policy; no scope open. -/
def stC7 : St :=
  { registrations := [(10, ⟨.cls 2, some .Scoped, [], false⟩)]
    singleton_cache := []
    scoped_cache := none
    in_scope := false
    next_id := 0
    heap := [] }

/-- A container with an open scope and one existing registration. -/
def stC8 : St :=
  { registrations := [(1, ⟨.cls 2, some .Singleton, [], false⟩)]
    singleton_cache := []
    scoped_cache := some []
    in_scope := true
    next_id := 0
    heap := [] }

/-- Type 10 bound to class 2 with the PerRequest (transient) policy. -/
def stC9 : St :=
  { registrations := [(10, ⟨.cls 2, some .PerRequest, [], false⟩)]
    singleton_cache := []
    scoped_cache := none
    in_scope := false
    next_id := 0
    heap := [] }

/-- Type 10 bound to class 2 with the Singleton policy. -/
def stC4 : St :=
  { registrations := [(10, ⟨.cls 2, some .Singleton, [], false⟩)]
    singleton_cache := []
    scoped_cache := none
    in_scope := false
    next_id := 0
    heap := [] }

/-- Type 10 bound to class 2 with the Scoped policy, inside a freshly
opened scope. -/
def stC5 : St :=
  { registrations := [(10, ⟨.cls 2, some .Scoped, [], false⟩)]
    singleton_cache := []
    scoped_cache := some []
    in_scope := true
    next_id := 0
    heap := [] }

/-- Type 10 bound to class 3 (PerRequest) with the explicit parameter
`p5 := 77`, type 20 bound to class 2 (Singleton); class 3 declares the
parameter `p5 : T20`, so `p5` is first resolved by type and then
overridden by the registration's own explicit value. -/
def stC3 : St :=
  { registrations :=
      [(10, ⟨.cls 3, some .PerRequest, [(5, Value.lit 77)], false⟩),
       (20, ⟨.cls 2, some .Singleton, [], false⟩)]
    singleton_cache := []
    scoped_cache := none
    in_scope := false
    next_id := 0
    heap := [] }

/-! ## Association-list lemmas -/

theorem lookupA_insertA_self {α : Type} (k : Nat) (v : α) (l : List (Nat × α)) :
    lookupA k (insertA k v l) = some v := by
  induction l with
  | nil => simp [insertA, lookupA]
  | cons p rest ih =>
      by_cases h : k = p.1
      · simp [insertA, h, lookupA]
      · simp [insertA, h, lookupA, ih]

theorem lookupA_insertA_ne {α : Type} (k k' : Nat) (v : α) (l : List (Nat × α))
    (h : k ≠ k') : lookupA k (insertA k' v l) = lookupA k l := by
  induction l with
  | nil => simp [insertA, lookupA, h]
  | cons p rest ih =>
      by_cases h2 : k' = p.1
      · subst h2
        simp [insertA, lookupA, h, ih]
      · by_cases h3 : k = p.1
        · simp [insertA, h2, lookupA, h3]
        · simp [insertA, h2, lookupA, h3, ih]

theorem lookupA_mem {α : Type} {k : Nat} {v : α} {l : List (Nat × α)}
    (h : lookupA k l = some v) : (k, v) ∈ l := by
  induction l with
  | nil => simp [lookupA] at h
  | cons p rest ih =>
      by_cases h2 : k = p.1
      · subst h2
        simp [lookupA] at h
        subst h
        exact List.mem_cons_self _ _
      · simp [lookupA, h2] at h
        exact List.mem_cons_of_mem _ (ih h)

theorem mem_insertA {α : Type} {p : Nat × α} {k : Nat} {v : α}
    {l : List (Nat × α)} (h : p ∈ insertA k v l) : p ∈ l ∨ p = (k, v) := by
  induction l with
  | nil =>
      simp [insertA] at h
      exact Or.inr h
  | cons q rest ih =>
      by_cases h2 : k = q.1
      · simp [insertA, h2] at h
        rcases h with h | h
        · exact Or.inr (by rw [h, ← h2])
        · exact Or.inl (List.mem_cons_of_mem _ h)
      · simp [insertA, h2] at h
        rcases h with h | h
        · exact Or.inl (by simp [h])
        · rcases ih h with h3 | h3
          · exact Or.inl (List.mem_cons_of_mem _ h3)
          · exact Or.inr h3

theorem RegWF_of_eq {st st' : St}
    (h : st'.registrations = st.registrations) (hwf : RegWF st) : RegWF st' := by
  intro p hp
  exact hwf p (h ▸ hp)

theorem PresA.refl (st : St) : PresA st st := by
  refine ⟨rfl, rfl, le_refl _, fun h => h, ?_, fun k v h => h⟩
  intro sc hsc
  exact ⟨sc, hsc, fun k v h => h, fun _ p hp => Or.inl hp⟩

theorem PresA.trans {s1 s2 s3 : St} (h12 : PresA s1 s2) (h23 : PresA s2 s3) :
    PresA s1 s3 := by
  obtain ⟨r12, i12, n12, z12, c12, g12⟩ := h12
  obtain ⟨r23, i23, n23, z23, c23, g23⟩ := h23
  refine ⟨r23.trans r12, i23.trans i12, n12.trans n23,
    fun h => z23 (z12 h), ?_, fun k v h => g23 k v (g12 k v h)⟩
  intro sc hsc
  obtain ⟨sc2, hsc2, keep12, new12⟩ := c12 sc hsc
  obtain ⟨sc3, hsc3, keep23, new23⟩ := c23 sc2 hsc2
  refine ⟨sc3, hsc3, fun k v h => keep23 k v (keep12 k v h), ?_⟩
  intro hwf p hp
  rcases new23 (RegWF_of_eq r12 hwf) p hp with h | ⟨i, hv, hlo, hhi⟩
  · rcases new12 hwf p h with h2 | ⟨i, hv, hlo, hhi⟩
    · exact Or.inl h2
    · exact Or.inr ⟨i, hv, hlo, lt_of_lt_of_le hhi n23⟩
  · exact Or.inr ⟨i, hv, le_trans n12 hlo, hhi⟩

theorem allocObj_presA (st : St) (c : Nat) (args : List (Nat × Value)) :
    PresA st (allocObj st c args).2 := by
  refine ⟨rfl, rfl, Nat.le_succ _, fun h => h, ?_, fun k v h => h⟩
  intro sc hsc
  exact ⟨sc, hsc, fun k v h => h, fun _ p hp => Or.inl hp⟩

theorem runProducer_presA (env : Env) (st : St) (p : ClassOrFn) :
    PresA st (runProducer env st p).2 := by
  cases p with
  | fn f =>
      cases h : env.factories f with
      | newObj c =>
          simpa [runProducer, h] using allocObj_presA st c []
      | constVal v => simpa [runProducer, h] using PresA.refl st
  | cls c =>
      by_cases h : (env.hints c).all (fun pr => pr.1 == selfName)
      · simpa [runProducer, h] using allocObj_presA st c []
      · simpa [runProducer, h] using PresA.refl st

/-! ## `register` effect lemmas -/

theorem register_state (env : Env) (st : St) (i : Nat) (a : RegArg)
    (ls : Option LifeStyle) (ps : Option (List (Nat × Value))) :
    ∃ rs, (register env st i a ls ps).2 = { st with registrations := rs } := by
  unfold register
  split
  · exact ⟨st.registrations, rfl⟩
  · split
    · exact ⟨_, rfl⟩
    · exact ⟨_, rfl⟩
    · split
      · exact ⟨st.registrations, rfl⟩
      · exact ⟨_, rfl⟩
    · exact ⟨st.registrations, rfl⟩
    · exact ⟨st.registrations, rfl⟩
    · exact ⟨st.registrations, rfl⟩
    · exact ⟨st.registrations, rfl⟩
    · exact ⟨st.registrations, rfl⟩

theorem register_inscope (env : Env) (st : St) (i : Nat) (a : RegArg)
    (ls : Option LifeStyle) (ps : Option (List (Nat × Value)))
    (h : st.in_scope = true) :
    register env st i a ls ps = (.error .injectorAlreadyConfigured, st) := by
  simp [register, h]

/-! ## Preservation through the resolver -/

theorem wfShape_cls {reg : Registration} (h : reg.wfShape = true)
    (hf : reg.is_factory = false) : ∃ c, reg.class_type = ClassOrFn.cls c := by
  cases h1 : reg.class_type with
  | cls c => exact ⟨c, rfl⟩
  | fn f => simp [Registration.wfShape, hf, h1] at h

theorem resolve_presA (env : Env) (recur : St → Nat → Except Err Value × St)
    (hrec : ∀ s t, PresA s (recur s t).2) :
    ∀ (hints : List (Nat × Nat)) (st : St) (acc : List (Nat × Value)),
    PresA st (resolve_constructor_dependencies env recur st hints acc).2 := by
  intro hints
  induction hints with
  | nil =>
      intro st acc
      simpa [resolve_constructor_dependencies] using PresA.refl st
  | cons hd rest ih =>
      intro st acc
      obtain ⟨param_name, param_type⟩ := hd
      by_cases hself : param_name = selfName
      · simpa [resolve_constructor_dependencies, hself] using ih st acc
      · by_cases hregd : (lookupA param_type st.registrations).isSome = true
        · cases hr : recur st param_type with
          | mk r st' =>
              have hp : PresA st st' := by
                have := hrec st param_type
                rw [hr] at this
                exact this
              cases r with
              | ok v =>
                  have hrest := ih st' (insertA param_name v acc)
                  simp only [resolve_constructor_dependencies, if_neg hself,
                    if_pos hregd, hr]
                  exact PresA.trans hp hrest
              | error e =>
                  simp only [resolve_constructor_dependencies, if_neg hself,
                    if_pos hregd, hr]
                  exact hp
        · cases ha : lookupA param_name (get_active_params st) with
          | some v =>
              have hrest := ih st (insertA param_name v acc)
              simp only [resolve_constructor_dependencies, if_neg hself,
                if_neg hregd, ha]
              exact hrest
          | none =>
              simp only [resolve_constructor_dependencies, if_neg hself,
                if_neg hregd, ha]
              exact PresA.refl st

theorem create_presA (env : Env) (recur : St → Nat → Except Err Value × St)
    (hrec : ∀ s t, PresA s (recur s t).2) (st : St) (i : Nat) :
    PresA st (create_instance env recur st i).2 := by
  cases hl : lookupA i st.registrations with
  | none =>
      simp only [create_instance, hl]
      exact PresA.refl st
  | some reg =>
      cases hct : reg.class_type with
      | cls c =>
          cases hres : resolve_constructor_dependencies env recur st
              (env.hints c) [] with
          | mk r st1 =>
              have hp : PresA st st1 := by
                have := resolve_presA env recur hrec (env.hints c) st []
                rw [hres] at this
                exact this
              cases r with
              | ok deps =>
                  simp only [create_instance, hl, hct, hres]
                  exact PresA.trans hp (allocObj_presA st1 c _)
              | error e =>
                  simp only [create_instance, hl, hct, hres]
                  exact hp
      | fn f =>
          by_cases hemp : (updateAll [] reg.params).isEmpty = true
          · simp only [create_instance, hl, hct, if_pos hemp]
            exact runProducer_presA env st (.fn f)
          · simp only [create_instance, hl, hct, if_neg hemp]
            exact PresA.refl st

theorem create_val (env : Env) (recur : St → Nat → Except Err Value × St)
    (hrec : ∀ s t, PresA s (recur s t).2) (st : St) (i : Nat)
    (reg : Registration) (c : Nat) (v : Value) (st' : St)
    (hl : lookupA i st.registrations = some reg)
    (hc : reg.class_type = .cls c)
    (h : create_instance env recur st i = (.ok v, st')) :
    ∃ j, v = Value.obj j ∧ st.next_id ≤ j ∧ j < st'.next_id := by
  simp only [create_instance, hl, hc] at h
  cases hres : resolve_constructor_dependencies env recur st (env.hints c) [] with
  | mk r st1 =>
      rw [hres] at h
      have hp : PresA st st1 := by
        have := resolve_presA env recur hrec (env.hints c) st []
        rw [hres] at this
        exact this
      cases r with
      | ok deps =>
          simp only [allocObj, Prod.mk.injEq] at h
          obtain ⟨h1, h2⟩ := h
          refine ⟨st1.next_id, ?_, hp.2.2.1, ?_⟩
          · exact (Except.ok.inj h1).symm
          · rw [← h2]
            exact Nat.lt_succ_self _
      | error e => simp at h

theorem get_presA (env : Env) :
    ∀ (fuel : Nat) (st : St) (i : Nat),
    PresA st (get_instance env fuel st i).2 := by
  intro fuel
  induction fuel with
  | zero =>
      intro st i
      simpa only [get_instance] using PresA.refl st
  | succ fuel ih =>
      intro st i
      have hrec : ∀ (s : St) (t : Nat),
          PresA s ((fun s t => get_instance env fuel s t) s t).2 :=
        fun s t => ih s t
      cases hl : lookupA i st.registrations with
      | none =>
          simp only [get_instance, hl]
          exact PresA.refl st
      | some reg =>
          by_cases hf : reg.is_factory = true
          · simp only [get_instance, hl, if_pos hf]
            exact runProducer_presA env st reg.class_type
          · cases hls : reg.life_style with
            | none =>
                simp only [get_instance, hl, if_neg hf, hls]
                exact PresA.refl st
            | some ls =>
                cases ls with
                | Singleton =>
                    cases hsc : lookupA i st.singleton_cache with
                    | some v =>
                        simp only [get_instance, hl, if_neg hf, hls, hsc]
                        exact PresA.refl st
                    | none =>
                        cases hc : create_instance env
                            (fun s t => get_instance env fuel s t) st i with
                        | mk r st' =>
                            have hp : PresA st st' := by
                              have := create_presA env _ hrec st i
                              rw [hc] at this
                              exact this
                            cases r with
                            | ok v =>
                                obtain ⟨hr, hi, hn, hz, hcs, hsg⟩ := hp
                                simp only [get_instance, hl, if_neg hf, hls,
                                  hsc, hc]
                                refine ⟨hr, hi, hn, hz, hcs, ?_⟩
                                intro k v0 hk
                                have hk' := hsg k v0 hk
                                by_cases hki : k = i
                                · subst hki
                                  rw [hsc] at hk
                                  cases hk
                                · rw [lookupA_insertA_ne k i v _ hki]
                                  exact hk'
                            | error e =>
                                simp only [get_instance, hl, if_neg hf, hls,
                                  hsc, hc]
                                exact hp
                | Scoped =>
                    cases hscd : st.scoped_cache with
                    | none =>
                        simp only [get_instance, hl, if_neg hf, hls, hscd]
                        exact PresA.refl st
                    | some sc =>
                        cases hsl : lookupA i sc with
                        | some v =>
                            simp only [get_instance, hl, if_neg hf, hls, hscd,
                              hsl]
                            exact PresA.refl st
                        | none =>
                            cases hc : create_instance env
                                (fun s t => get_instance env fuel s t) st i with
                            | mk r st' =>
                                have hp : PresA st st' := by
                                  have := create_presA env _ hrec st i
                                  rw [hc] at this
                                  exact this
                                cases r with
                                | error e =>
                                    simp only [get_instance, hl, if_neg hf,
                                      hls, hscd, hsl, hc]
                                    exact hp
                                | ok v =>
                                    obtain ⟨hr, hi, hn, hz, hcs, hsg⟩ := hp
                                    obtain ⟨sc', hsc', hkeep, hnew⟩ :=
                                      hcs sc hscd
                                    simp only [get_instance, hl, if_neg hf,
                                      hls, hscd, hsl, hc, hsc']
                                    refine ⟨hr, hi, hn, ?_, ?_, hsg⟩
                                    · intro h0
                                      rw [h0] at hscd
                                      cases hscd
                                    · intro sc0 hsc0
                                      rw [hscd] at hsc0
                                      injection hsc0 with he
                                      subst he
                                      refine ⟨insertA i v sc', rfl, ?_, ?_⟩
                                      · intro k v0 hk
                                        by_cases hki : k = i
                                        · subst hki
                                          rw [hsl] at hk
                                          cases hk
                                        · rw [lookupA_insertA_ne _ _ _ _ hki]
                                          exact hkeep k v0 hk
                                      · intro hwf p hp2
                                        rcases mem_insertA hp2 with hmem | hpe
                                        · exact hnew hwf p hmem
                                        · have hf' : reg.is_factory = false := by
                                            simpa using hf
                                          have hwfr := hwf _ (lookupA_mem hl)
                                          obtain ⟨c, hcc⟩ := wfShape_cls hwfr hf'
                                          obtain ⟨j, hvj, hlo, hhi⟩ :=
                                            create_val env _ hrec st i reg c v
                                              st' hl hcc hc
                                          subst hpe
                                          exact Or.inr ⟨j, by simpa using hvj,
                                            hlo, hhi⟩
                | PerRequest =>
                    simp only [get_instance, hl, if_neg hf, hls]
                    exact create_presA env _ hrec st i

/-! ## Branch behaviour of `get_instance` -/

theorem get_singleton_hit (env : Env) (fuel : Nat) (st : St) (i : Nat)
    (reg : Registration) (v : Value)
    (hl : lookupA i st.registrations = some reg)
    (hf : reg.is_factory = false) (hls : reg.life_style = some .Singleton)
    (hsc : lookupA i st.singleton_cache = some v) :
    get_instance env (fuel + 1) st i = (.ok v, st) := by
  simp [get_instance, hl, hf, hls, hsc]

theorem get_singleton_post (env : Env) (fuel : Nat) (st : St) (i : Nat)
    (reg : Registration) (v : Value) (st' : St)
    (hl : lookupA i st.registrations = some reg)
    (hf : reg.is_factory = false) (hls : reg.life_style = some .Singleton)
    (h : get_instance env (fuel + 1) st i = (.ok v, st')) :
    lookupA i st'.singleton_cache = some v := by
  cases hsc : lookupA i st.singleton_cache with
  | some v0 =>
      rw [get_singleton_hit env fuel st i reg v0 hl hf hls hsc] at h
      simp only [Prod.mk.injEq] at h
      obtain ⟨h1, h2⟩ := h
      rw [← h2, ← Except.ok.inj h1]
      exact hsc
  | none =>
      simp only [get_instance, hl, hf, hls, hsc, Bool.false_eq_true,
        if_false] at h
      cases hc : create_instance env
          (fun s t => get_instance env fuel s t) st i with
      | mk r st1 =>
          rw [hc] at h
          cases r with
          | error e => simp at h
          | ok v1 =>
              simp only [Prod.mk.injEq] at h
              obtain ⟨h1, h2⟩ := h
              rw [← h2, ← Except.ok.inj h1]
              exact lookupA_insertA_self i v1 st1.singleton_cache

theorem get_scoped_noscope (env : Env) (fuel : Nat) (st : St) (i : Nat)
    (reg : Registration)
    (hl : lookupA i st.registrations = some reg)
    (hf : reg.is_factory = false) (hls : reg.life_style = some .Scoped)
    (hsc : st.scoped_cache = none) :
    get_instance env (fuel + 1) st i = (.error .runtimeError, st) := by
  simp [get_instance, hl, hf, hls, hsc]

theorem get_scoped_hit (env : Env) (fuel : Nat) (st : St) (i : Nat)
    (reg : Registration) (sc : List (Nat × Value)) (v : Value)
    (hl : lookupA i st.registrations = some reg)
    (hf : reg.is_factory = false) (hls : reg.life_style = some .Scoped)
    (hsc : st.scoped_cache = some sc) (hv : lookupA i sc = some v) :
    get_instance env (fuel + 1) st i = (.ok v, st) := by
  simp [get_instance, hl, hf, hls, hsc, hv]

theorem get_scoped_post (env : Env) (fuel : Nat) (st : St) (i : Nat)
    (reg : Registration) (v : Value) (st' : St)
    (hl : lookupA i st.registrations = some reg)
    (hf : reg.is_factory = false) (hls : reg.life_style = some .Scoped)
    (h : get_instance env (fuel + 1) st i = (.ok v, st')) :
    ∃ sc', st'.scoped_cache = some sc' ∧ lookupA i sc' = some v := by
  cases hscd : st.scoped_cache with
  | none =>
      rw [get_scoped_noscope env fuel st i reg hl hf hls hscd] at h
      simp at h
  | some sc =>
      cases hsl : lookupA i sc with
      | some v0 =>
          rw [get_scoped_hit env fuel st i reg sc v0 hl hf hls hscd hsl] at h
          simp only [Prod.mk.injEq] at h
          obtain ⟨h1, h2⟩ := h
          rw [← h2, ← Except.ok.inj h1]
          exact ⟨sc, hscd, hsl⟩
      | none =>
          simp only [get_instance, hl, hf, hls, hscd, hsl, Bool.false_eq_true,
            if_false] at h
          cases hc : create_instance env
              (fun s t => get_instance env fuel s t) st i with
          | mk r st1 =>
              rw [hc] at h
              cases r with
              | error e => simp at h
              | ok v1 =>
                  cases hs1 : st1.scoped_cache with
                  | none => simp [hs1] at h
                  | some sc1 =>
                      simp only [hs1] at h
                      simp only [Prod.mk.injEq] at h
                      obtain ⟨h1, h2⟩ := h
                      rw [← h2, ← Except.ok.inj h1]
                      exact ⟨insertA i v1 sc1, rfl,
                        lookupA_insertA_self i v1 sc1⟩

/-- A successful scoped resolution is either a cache hit on the current
scoped cache, or a cache miss followed by a fresh construction. -/
theorem get_scoped_ok_cases (env : Env) (fuel : Nat) (st : St) (i : Nat)
    (reg : Registration) (v : Value) (st' : St)
    (hl : lookupA i st.registrations = some reg)
    (hf : reg.is_factory = false) (hls : reg.life_style = some .Scoped)
    (h : get_instance env (fuel + 1) st i = (.ok v, st')) :
    (∃ sc, st.scoped_cache = some sc ∧ lookupA i sc = some v ∧ st' = st) ∨
    (∃ sc st1, st.scoped_cache = some sc ∧ lookupA i sc = none ∧
      create_instance env (fun s t => get_instance env fuel s t) st i =
        (.ok v, st1) ∧ st1.next_id = st'.next_id) := by
  cases hscd : st.scoped_cache with
  | none =>
      rw [get_scoped_noscope env fuel st i reg hl hf hls hscd] at h
      simp at h
  | some sc =>
      cases hsl : lookupA i sc with
      | some v0 =>
          rw [get_scoped_hit env fuel st i reg sc v0 hl hf hls hscd hsl] at h
          simp only [Prod.mk.injEq] at h
          obtain ⟨h1, h2⟩ := h
          refine Or.inl ⟨sc, rfl, ?_, h2.symm⟩
          rw [← Except.ok.inj h1]
          exact hsl
      | none =>
          simp only [get_instance, hl, hf, hls, hscd, hsl, Bool.false_eq_true,
            if_false] at h
          cases hc : create_instance env
              (fun s t => get_instance env fuel s t) st i with
          | mk r st1 =>
              rw [hc] at h
              cases r with
              | error e => simp at h
              | ok v1 =>
                  cases hs1 : st1.scoped_cache with
                  | none => simp [hs1] at h
                  | some sc1 =>
                      simp only [hs1] at h
                      simp only [Prod.mk.injEq] at h
                      obtain ⟨h1, h2⟩ := h
                      refine Or.inr ⟨sc, st1, rfl, hsl, ?_, ?_⟩
                      · rw [Except.ok.inj h1]
                      · have h3 := congrArg St.next_id h2
                        exact h3

theorem get_perRequest (env : Env) (fuel : Nat) (st : St) (i : Nat)
    (reg : Registration)
    (hl : lookupA i st.registrations = some reg)
    (hf : reg.is_factory = false) (hls : reg.life_style = some .PerRequest) :
    get_instance env (fuel + 1) st i =
      create_instance env (fun s t => get_instance env fuel s t) st i := by
  simp [get_instance, hl, hf, hls]

/-! ## Preservation across public operations -/

theorem openScope_guard (st : St) (h : st.in_scope = true) :
    openScope st = (.error .runtimeError, st) := by
  simp [openScope, h]

theorem openScope_idle (st : St) (h : st.in_scope = false) :
    openScope st =
      (.ok (), { st with in_scope := true, scoped_cache := some [] }) := by
  simp [openScope, h]

theorem register_regwf (env : Env) (st : St) (i : Nat) (a : RegArg)
    (ls : Option LifeStyle) (ps : Option (List (Nat × Value)))
    (h : RegWF st) : RegWF (register env st i a ls ps).2 := by
  unfold register
  split
  · exact h
  · split
    · intro p hp
      rcases mem_insertA hp with hm | he
      · exact h p hm
      · rw [he]
        rfl
    · intro p hp
      rcases mem_insertA hp with hm | he
      · exact h p hm
      · rw [he]
        rfl
    · split
      · exact h
      · intro p hp
        rcases mem_insertA hp with hm | he
        · exact h p hm
        · rw [he]
          rfl
    · exact h
    · exact h
    · exact h
    · exact h
    · exact h

theorem step_regwf (env : Env) (st : St) (op : Op) (h : RegWF st) :
    RegWF (step env st op) := by
  cases op with
  | registerOp i a ls ps =>
      show RegWF (register env st i a ls ps).2
      exact register_regwf env st i a ls ps h
  | getInstanceOp fuel i =>
      show RegWF (get_instance env fuel st i).2
      exact RegWF_of_eq (get_presA env fuel st i).1 h
  | openScopeOp =>
      show RegWF (openScope st).2
      by_cases hin : st.in_scope = true
      · rw [openScope_guard st hin]
        exact h
      · rw [openScope_idle st (by simpa using hin)]
        exact fun p hp => h p hp
  | closeScopeOp => exact fun p hp => h p hp

theorem step_singleton_mono (env : Env) (st : St) (op : Op) (k : Nat)
    (v : Value) (h : lookupA k st.singleton_cache = some v) :
    lookupA k (step env st op).singleton_cache = some v := by
  cases op with
  | registerOp i a ls ps =>
      show lookupA k (register env st i a ls ps).2.singleton_cache = some v
      obtain ⟨rs, hr⟩ := register_state env st i a ls ps
      rw [hr]
      exact h
  | getInstanceOp fuel i =>
      show lookupA k (get_instance env fuel st i).2.singleton_cache = some v
      exact (get_presA env fuel st i).2.2.2.2.2 k v h
  | openScopeOp =>
      show lookupA k (openScope st).2.singleton_cache = some v
      by_cases hin : st.in_scope = true
      · rw [openScope_guard st hin]
        exact h
      · rw [openScope_idle st (by simpa using hin)]
        exact h
  | closeScopeOp => exact h

theorem step_next_mono (env : Env) (st : St) (op : Op) :
    st.next_id ≤ (step env st op).next_id := by
  cases op with
  | registerOp i a ls ps =>
      show st.next_id ≤ (register env st i a ls ps).2.next_id
      obtain ⟨rs, hr⟩ := register_state env st i a ls ps
      rw [hr]
  | getInstanceOp fuel i =>
      show st.next_id ≤ (get_instance env fuel st i).2.next_id
      exact (get_presA env fuel st i).2.2.1
  | openScopeOp =>
      show st.next_id ≤ (openScope st).2.next_id
      by_cases hin : st.in_scope = true
      · rw [openScope_guard st hin]
      · rw [openScope_idle st (by simpa using hin)]
  | closeScopeOp => exact le_refl _

theorem run_regwf (env : Env) (ops : List Op) :
    ∀ st, RegWF st → RegWF (run env ops st) := by
  induction ops with
  | nil => intro st h; exact h
  | cons op rest ih =>
      intro st h
      exact ih (step env st op) (step_regwf env st op h)

theorem run_singleton_mono (env : Env) (ops : List Op) :
    ∀ st k v, lookupA k st.singleton_cache = some v →
    lookupA k (run env ops st).singleton_cache = some v := by
  induction ops with
  | nil => intro st k v h; exact h
  | cons op rest ih =>
      intro st k v h
      exact ih (step env st op) k v (step_singleton_mono env st op k v h)

theorem run_next_mono (env : Env) (ops : List Op) :
    ∀ st, st.next_id ≤ (run env ops st).next_id := by
  induction ops with
  | nil => intro st; exact le_refl _
  | cons op rest ih =>
      intro st
      exact (step_next_mono env st op).trans (ih (step env st op))

theorem step_scinv (env : Env) (st : St) (op : Op) (h : ScInv st) :
    ScInv (step env st op) := by
  cases op with
  | registerOp i a ls ps =>
      show ScInv (register env st i a ls ps).2
      obtain ⟨rs, hr⟩ := register_state env st i a ls ps
      rw [hr]
      exact h
  | getInstanceOp fuel i =>
      have hp := get_presA env fuel st i
      show ScInv (get_instance env fuel st i).2
      unfold ScInv
      rw [hp.2.1, ← h]
      cases hsc : st.scoped_cache with
      | none => rw [hp.2.2.2.1 hsc]
      | some sc =>
          obtain ⟨sc', hsc', _, _⟩ := hp.2.2.2.2.1 sc hsc
          rw [hsc']
          rfl
  | openScopeOp =>
      show ScInv (openScope st).2
      by_cases hin : st.in_scope = true
      · rw [openScope_guard st hin]
        exact h
      · rw [openScope_idle st (by simpa using hin)]
        rfl
  | closeScopeOp => rfl

theorem presA_vlb {n : Nat} {st st' : St} (hp : PresA st st') (hwf : RegWF st)
    (h : ScopedVLB n st) : ScopedVLB n st' := by
  obtain ⟨hn, hsc⟩ := h
  refine ⟨hn.trans hp.2.2.1, ?_⟩
  intro sc' hsc'
  cases hscd : st.scoped_cache with
  | none =>
      rw [hp.2.2.2.1 hscd] at hsc'
      cases hsc'
  | some sc =>
      obtain ⟨sc'', hsc'', hkeep, hnew⟩ := hp.2.2.2.2.1 sc hscd
      rw [hsc''] at hsc'
      injection hsc' with he
      subst he
      intro p hpm
      rcases hnew hwf p hpm with hm | ⟨i, hv, hlo, _⟩
      · exact hsc sc hscd p hm
      · exact ⟨i, hv, hn.trans hlo⟩

theorem step_vlb (env : Env) (st : St) (op : Op) (n : Nat) (hwf : RegWF st)
    (h : ScopedVLB n st) : ScopedVLB n (step env st op) := by
  cases op with
  | registerOp i a ls ps =>
      show ScopedVLB n (register env st i a ls ps).2
      obtain ⟨rs, hr⟩ := register_state env st i a ls ps
      rw [hr]
      exact ⟨h.1, h.2⟩
  | getInstanceOp fuel i =>
      show ScopedVLB n (get_instance env fuel st i).2
      exact presA_vlb (get_presA env fuel st i) hwf h
  | openScopeOp =>
      show ScopedVLB n (openScope st).2
      by_cases hin : st.in_scope = true
      · rw [openScope_guard st hin]
        exact h
      · rw [openScope_idle st (by simpa using hin)]
        refine ⟨h.1, ?_⟩
        intro sc hsc p hp
        injection hsc with he
        rw [← he] at hp
        cases hp
  | closeScopeOp =>
      refine ⟨h.1, ?_⟩
      intro sc hsc
      cases hsc

theorem run_vlb (env : Env) (ops : List Op) (n : Nat) :
    ∀ st, RegWF st → ScopedVLB n st → ScopedVLB n (run env ops st) := by
  induction ops with
  | nil => intro st _ h; exact h
  | cons op rest ih =>
      intro st hwf h
      exact ih (step env st op) (step_regwf env st op hwf)
        (step_vlb env st op n hwf h)

/-! ## Steps inside an open scope -/

theorem step_inscope (env : Env) (st : St) (op : Op) (hin : st.in_scope = true)
    (hop : op ≠ Op.closeScopeOp) :
    (step env st op).registrations = st.registrations ∧
    (step env st op).in_scope = true ∧
    (∀ sc k v, st.scoped_cache = some sc → lookupA k sc = some v →
      ∃ sc', (step env st op).scoped_cache = some sc' ∧
        lookupA k sc' = some v) := by
  cases op with
  | registerOp i a ls ps =>
      have hst : step env st (Op.registerOp i a ls ps) = st := by
        show (register env st i a ls ps).2 = st
        rw [register_inscope env st i a ls ps hin]
      rw [hst]
      exact ⟨rfl, hin, fun sc k v h1 h2 => ⟨sc, h1, h2⟩⟩
  | getInstanceOp fuel i =>
      have hp := get_presA env fuel st i
      refine ⟨hp.1, hp.2.1.trans hin, ?_⟩
      intro sc k v h1 h2
      obtain ⟨sc', hsc', hkeep, _⟩ := hp.2.2.2.2.1 sc h1
      exact ⟨sc', hsc', hkeep k v h2⟩
  | openScopeOp =>
      have hst : step env st Op.openScopeOp = st := by
        show (openScope st).2 = st
        rw [openScope_guard st hin]
      rw [hst]
      exact ⟨rfl, hin, fun sc k v h1 h2 => ⟨sc, h1, h2⟩⟩
  | closeScopeOp => exact absurd rfl hop

theorem run_inscope (env : Env) (ops : List Op) :
    ∀ st, st.in_scope = true → (∀ op ∈ ops, op ≠ Op.closeScopeOp) →
    (run env ops st).registrations = st.registrations ∧
    (run env ops st).in_scope = true ∧
    (∀ sc k v, st.scoped_cache = some sc → lookupA k sc = some v →
      ∃ sc', (run env ops st).scoped_cache = some sc' ∧
        lookupA k sc' = some v) := by
  induction ops with
  | nil =>
      intro st hin _
      exact ⟨rfl, hin, fun sc k v h1 h2 => ⟨sc, h1, h2⟩⟩
  | cons op rest ih =>
      intro st hin hops
      have h1 := step_inscope env st op hin (hops op (List.mem_cons_self _ _))
      have h2 := ih (step env st op) h1.2.1
        (fun o ho => hops o (List.mem_cons_of_mem _ ho))
      refine ⟨h2.1.trans h1.1, h2.2.1, ?_⟩
      intro sc k v hsc hk
      obtain ⟨sc', hsc', hk'⟩ := h1.2.2 sc k v hsc hk
      obtain ⟨sc'', hsc'', hk''⟩ := h2.2.2 sc' k v hsc' hk'
      exact ⟨sc'', hsc'', hk''⟩

theorem resolve_eq_spec (env : Env)
    (recur : St → Nat → Except Err Value × St) :
    ∀ (hints : List (Nat × Nat)) (st : St) (acc : List (Nat × Value)),
    resolve_constructor_dependencies env recur st hints acc =
      spec_resolve_params recur st
        (hints.filter (fun p => p.1 ≠ selfName)) acc := by
  intro hints
  induction hints with
  | nil => intro st acc; rfl
  | cons hd rest ih =>
      intro st acc
      obtain ⟨n, t⟩ := hd
      by_cases hself : n = selfName
      · have hfil : List.filter (fun p => decide (p.1 ≠ selfName))
            ((n, t) :: rest) =
            List.filter (fun p => decide (p.1 ≠ selfName)) rest := by
          simp [List.filter_cons, hself]
        simp only [resolve_constructor_dependencies, if_pos hself]
        rw [ih st acc]
        rw [← hfil]
      · have hfil : List.filter (fun p => decide (p.1 ≠ selfName))
            ((n, t) :: rest) =
            (n, t) :: List.filter (fun p => decide (p.1 ≠ selfName)) rest := by
          simp [List.filter_cons, hself]
        rw [hfil]
        by_cases hreg : (lookupA t st.registrations).isSome = true
        · cases hr : recur st t with
          | mk r st' =>
              cases r with
              | ok v =>
                  simp only [resolve_constructor_dependencies, if_neg hself,
                    if_pos hreg, hr, spec_resolve_params, spec_resolve_param]
                  exact ih st' (insertA n v acc)
              | error e =>
                  simp only [resolve_constructor_dependencies, if_neg hself,
                    if_pos hreg, hr, spec_resolve_params, spec_resolve_param]
        · cases ha : lookupA n (get_active_params st) with
          | some v =>
              simp only [resolve_constructor_dependencies, if_neg hself,
                if_neg hreg, ha, spec_resolve_params, spec_resolve_param]
              exact ih st (insertA n v acc)
          | none =>
              simp only [resolve_constructor_dependencies, if_neg hself,
                if_neg hreg, ha, spec_resolve_params, spec_resolve_param]

/-- Dictionary-update override: looking a key up after `d.update(ps)`
yields the value from `ps` when the key occurs there, and the old value
from `d` otherwise. -/
theorem lookupA_updateAll (k : Nat) (ps : List (Nat × Value)) :
    ∀ d, (ps.map Prod.fst).Nodup →
    lookupA k (updateAll d ps) =
      (match lookupA k ps with
       | some v => some v
       | none => lookupA k d) := by
  induction ps with
  | nil => intro d _; rfl
  | cons p rest ih =>
      intro d hnd
      obtain ⟨k0, v0⟩ := p
      simp only [List.map_cons, List.nodup_cons] at hnd
      obtain ⟨hk0, hnd'⟩ := hnd
      show lookupA k (updateAll (insertA k0 v0 d) rest) = _
      rw [ih (insertA k0 v0 d) hnd']
      by_cases hkk : k = k0
      · subst hkk
        have hrest : lookupA k rest = none := by
          cases hr : lookupA k rest with
          | none => rfl
          | some v1 =>
              exact absurd (List.mem_map_of_mem Prod.fst (lookupA_mem hr)) hk0
        rw [hrest, lookupA_insertA_self]
        simp [lookupA]
      · rw [lookupA_insertA_ne k k0 v0 d hkk]
        simp [lookupA, hkk]

/-! ## No reachable unknown-life-style error (claim C10 support) -/

theorem runProducer_no_ve (env : Env) (st : St) (p : ClassOrFn) :
    (runProducer env st p).1 ≠ .error .valueError := by
  cases p with
  | fn f =>
      cases hf : env.factories f with
      | newObj c => simp [runProducer, hf, allocObj]
      | constVal v => simp [runProducer, hf]
  | cls c =>
      by_cases h : (env.hints c).all (fun pr => pr.1 == selfName) = true
      · simp [runProducer, h, allocObj]
      · simp [runProducer, h]

theorem resolve_no_ve (env : Env) (recur : St → Nat → Except Err Value × St)
    (hrecp : ∀ s t, PresA s (recur s t).2)
    (hrec : ∀ s t, RegWF s → (recur s t).1 ≠ .error .valueError) :
    ∀ (hints : List (Nat × Nat)) (st : St) (acc : List (Nat × Value)),
    RegWF st →
    (resolve_constructor_dependencies env recur st hints acc).1 ≠
      .error .valueError := by
  intro hints
  induction hints with
  | nil => intro st acc _; simp [resolve_constructor_dependencies]
  | cons hd rest ih =>
      intro st acc hwf
      obtain ⟨n, t⟩ := hd
      by_cases hself : n = selfName
      · simp only [resolve_constructor_dependencies, if_pos hself]
        exact ih st acc hwf
      · by_cases hreg : (lookupA t st.registrations).isSome = true
        · cases hr : recur st t with
          | mk r st' =>
              cases r with
              | ok v =>
                  simp only [resolve_constructor_dependencies, if_neg hself,
                    if_pos hreg, hr]
                  have hp : PresA st st' := by
                    have := hrecp st t
                    rw [hr] at this
                    exact this
                  exact ih st' (insertA n v acc) (RegWF_of_eq hp.1 hwf)
              | error e =>
                  simp only [resolve_constructor_dependencies, if_neg hself,
                    if_pos hreg, hr]
                  have := hrec st t hwf
                  rw [hr] at this
                  simpa using this
        · cases ha : lookupA n (get_active_params st) with
          | some v =>
              simp only [resolve_constructor_dependencies, if_neg hself,
                if_neg hreg, ha]
              exact ih st (insertA n v acc) hwf
          | none =>
              simp only [resolve_constructor_dependencies, if_neg hself,
                if_neg hreg, ha]
              simp

theorem create_no_ve (env : Env) (recur : St → Nat → Except Err Value × St)
    (hrecp : ∀ s t, PresA s (recur s t).2)
    (hrec : ∀ s t, RegWF s → (recur s t).1 ≠ .error .valueError)
    (st : St) (i : Nat) (hwf : RegWF st) :
    (create_instance env recur st i).1 ≠ .error .valueError := by
  cases hl : lookupA i st.registrations with
  | none => simp [create_instance, hl]
  | some reg =>
      cases hct : reg.class_type with
      | cls c =>
          cases hres : resolve_constructor_dependencies env recur st
              (env.hints c) [] with
          | mk r st1 =>
              cases r with
              | ok deps => simp [create_instance, hl, hct, hres, allocObj]
              | error e =>
                  simp only [create_instance, hl, hct, hres]
                  have := resolve_no_ve env recur hrecp hrec
                    (env.hints c) st [] hwf
                  rw [hres] at this
                  simpa using this
      | fn f =>
          by_cases hemp : (updateAll [] reg.params).isEmpty = true
          · simp only [create_instance, hl, hct, if_pos hemp]
            exact runProducer_no_ve env st (.fn f)
          · simp [create_instance, hl, hct, hemp]

theorem get_no_ve (env : Env) :
    ∀ (fuel : Nat) (st : St) (i : Nat), RegWF st →
    (get_instance env fuel st i).1 ≠ .error .valueError := by
  intro fuel
  induction fuel with
  | zero => intro st i _; simp [get_instance]
  | succ fuel ih =>
      intro st i hwf
      have hrecp : ∀ (s : St) (t : Nat),
          PresA s ((fun s t => get_instance env fuel s t) s t).2 :=
        fun s t => get_presA env fuel s t
      have hrec : ∀ (s : St) (t : Nat), RegWF s →
          ((fun s t => get_instance env fuel s t) s t).1 ≠
            .error .valueError :=
        fun s t h => ih s t h
      cases hl : lookupA i st.registrations with
      | none => simp [get_instance, hl]
      | some reg =>
          by_cases hf : reg.is_factory = true
          · simp only [get_instance, hl, if_pos hf]
            exact runProducer_no_ve env st reg.class_type
          · cases hls : reg.life_style with
            | none =>
                have hwfr := hwf _ (lookupA_mem hl)
                have hf' : reg.is_factory = false := by simpa using hf
                simp [Registration.wfShape, hf', hls] at hwfr
            | some ls =>
                cases ls with
                | Singleton =>
                    cases hsc : lookupA i st.singleton_cache with
                    | some v => simp [get_instance, hl, hf, hls, hsc]
                    | none =>
                        cases hc : create_instance env
                            (fun s t => get_instance env fuel s t) st i with
                        | mk r st' =>
                            cases r with
                            | ok v =>
                                simp [get_instance, hl, hf, hls, hsc, hc]
                            | error e =>
                                simp only [get_instance, hl, hf, hls, hsc, hc,
                                  Bool.false_eq_true, if_false]
                                have := create_no_ve env _ hrecp hrec st i hwf
                                rw [hc] at this
                                exact this
                | Scoped =>
                    cases hscd : st.scoped_cache with
                    | none => simp [get_instance, hl, hf, hls, hscd]
                    | some sc =>
                        cases hsl : lookupA i sc with
                        | some v =>
                            simp [get_instance, hl, hf, hls, hscd, hsl]
                        | none =>
                            cases hc : create_instance env
                                (fun s t => get_instance env fuel s t) st i with
                            | mk r st' =>
                                cases r with
                                | ok v =>
                                    cases hs1 : st'.scoped_cache with
                                    | none =>
                                        simp [get_instance, hl, hf, hls, hscd,
                                          hsl, hc, hs1]
                                    | some sc1 =>
                                        simp [get_instance, hl, hf, hls, hscd,
                                          hsl, hc, hs1]
                                | error e =>
                                    simp only [get_instance, hl, hf, hls, hscd,
                                      hsl, hc, Bool.false_eq_true, if_false]
                                    have := create_no_ve env _ hrecp hrec st i
                                      hwf
                                    rw [hc] at this
                                    exact this
                | PerRequest =>
                    simp only [get_instance, hl, hf, hls, Bool.false_eq_true,
                      if_false]
                    exact create_no_ve env _ hrecp hrec st i hwf

/-! ## Claim C1 -/

/-- C1 counterexample: the claim says a call with a concrete class but no
life style fails with a ConfigurationError and adds no registration.  On
the code, a class is callable, so `register(interface, ConcreteClass)`
takes the factory branch: it succeeds and stores a factory-mode
registration. -/
theorem claim_C1_counterexample :
    (register envW St.init 1 (RegArg.cls 7) none none).1 = .ok () ∧
    (register envW St.init 1 (RegArg.cls 7) none none).2.registrations =
      [(1, ⟨ClassOrFn.cls 7, none, [], true⟩)] :=
  ⟨rfl, rfl⟩

/-- C1 (amended): outside a scope, `register` fails with the
configuration-shape error (`ValueError`) and leaves the state unchanged
exactly when the producer is not callable (absent, or a non-callable
non-class object), or when a non-class callable is given together with a
life style; a callable producer with no life style — including a concrete
class with no life style — always succeeds as a factory registration. -/
theorem claim_C1_amended :
    (∀ (env : Env) (st : St) (i : Nat) (a : RegArg) (ls : Option LifeStyle)
       (ps : Option (List (Nat × Value))), st.in_scope = false →
       (a.callable = false ∨ (a.isType = false ∧ ls.isSome = true)) →
       register env st i a ls ps = (.error .valueError, st)) ∧
    (∀ (env : Env) (st : St) (i : Nat) (a : RegArg)
       (ps : Option (List (Nat × Value))), st.in_scope = false →
       a.callable = true →
       (register env st i a none ps).1 = .ok ()) := by
  constructor
  · intro env st i a ls ps hin hbad
    cases a with
    | cls c =>
        exfalso
        rcases hbad with h | ⟨h, _⟩
        · simp [RegArg.callable] at h
        · simp [RegArg.isType] at h
    | fn f =>
        cases ls with
        | none =>
            exfalso
            rcases hbad with h | ⟨_, h⟩
            · simp [RegArg.callable] at h
            · simp at h
        | some l => simp [register, hin]
    | noneArg =>
        cases ls with
        | none => simp [register, hin]
        | some l => simp [register, hin]
    | other =>
        cases ls with
        | none => simp [register, hin]
        | some l => simp [register, hin]
  · intro env st i a ps hin hcall
    cases a with
    | cls c => simp [register, hin]
    | fn f => simp [register, hin]
    | noneArg => simp [RegArg.callable] at hcall
    | other => simp [RegArg.callable] at hcall

/-- C1 witness: a `None` producer is rejected with `ValueError` and the
state is unchanged; a plain function with no life style is accepted. -/
theorem claim_C1_witness :
    register envW St.init 2 RegArg.noneArg none none =
      (.error .valueError, St.init) ∧
    (register envW St.init 2 (RegArg.fn 3) none none).1 = .ok () :=
  ⟨claim_C1_amended.1 envW St.init 2 RegArg.noneArg none none rfl
     (Or.inl rfl),
   claim_C1_amended.2 envW St.init 2 (RegArg.fn 3) none rfl rfl⟩

/-! ## Claim C2 -/

/-- C2 counterexample: the claim says a failed `get_instance` leaves both
caches exactly as before.  On the code, resolving type 10 first resolves
its type-20 dependency successfully — caching it in `singleton_cache` —
and then fails on the unsatisfiable second parameter; the new dependency
entry survives the error. -/
theorem claim_C2_counterexample :
    (get_instance envW 5 stC2 10).1 = .error .unregisteredDependency ∧
    (get_instance envW 5 stC2 10).2.singleton_cache =
      [(20, Value.obj 0)] ∧
    stC2.singleton_cache = [] :=
  ⟨rfl, rfl, rfl⟩

/-- C2 (amended): if `get_instance` fails, the caches may retain new
entries for dependency types resolved successfully before the failure,
but no entry present before the call is removed or overwritten, and a
scoped cache that was absent stays absent. -/
theorem claim_C2_amended (env : Env) (fuel : Nat) (st : St) (i : Nat)
    (e : Err) (st' : St)
    (h : get_instance env fuel st i = (.error e, st')) :
    (∀ k v, lookupA k st.singleton_cache = some v →
      lookupA k st'.singleton_cache = some v) ∧
    (st.scoped_cache = none → st'.scoped_cache = none) ∧
    (∀ sc, st.scoped_cache = some sc → ∃ sc', st'.scoped_cache = some sc' ∧
      ∀ k v, lookupA k sc = some v → lookupA k sc' = some v) := by
  have hp := get_presA env fuel st i
  rw [h] at hp
  refine ⟨hp.2.2.2.2.2, hp.2.2.2.1, ?_⟩
  intro sc hsc
  obtain ⟨sc', h1, h2, _⟩ := hp.2.2.2.2.1 sc hsc
  exact ⟨sc', h1, h2⟩

/-- C2 witness: on the concrete failing resolution of type 10, the absent
scoped cache stays absent after the error. -/
theorem claim_C2_witness :
    (get_instance envW 5 stC2 10).2.scoped_cache = none :=
  (claim_C2_amended envW 5 stC2 10 .unregisteredDependency
    (get_instance envW 5 stC2 10).2 rfl).2.1 rfl

/-! ## Claim C7 -/

/-- C7: resolving a type registered with the Scoped policy while no scope
is open fails with the scope-state error (`RuntimeError`) and returns the
state unchanged — no construction happens and no cache changes. -/
theorem claim_C7 (env : Env) (fuel : Nat) (st : St) (i : Nat)
    (reg : Registration)
    (hl : lookupA i st.registrations = some reg)
    (hf : reg.is_factory = false) (hls : reg.life_style = some .Scoped)
    (hsc : st.scoped_cache = none) (hfuel : 0 < fuel) :
    get_instance env fuel st i = (.error .runtimeError, st) := by
  cases fuel with
  | zero => cases hfuel
  | succ f => exact get_scoped_noscope env f st i reg hl hf hls hsc

/-- C7 witness: the concrete scoped registration with no open scope. -/
theorem claim_C7_witness :
    get_instance envW 3 stC7 10 = (.error .runtimeError, stC7) :=
  claim_C7 envW 3 stC7 10 ⟨.cls 2, some .Scoped, [], false⟩ rfl rfl rfl rfl
    (by decide)

/-! ## Claim C8 -/

/-- C8: while a scope is open, every `register` call fails with the
configuration error (`InjectorAlreadyConfiguredError`) and returns the
state unchanged — in particular the registrations map, and with it any
existing registration, keeps its prior record. -/
theorem claim_C8 (env : Env) (st : St) (i : Nat) (a : RegArg)
    (ls : Option LifeStyle) (ps : Option (List (Nat × Value)))
    (h : st.in_scope = true) :
    register env st i a ls ps = (.error .injectorAlreadyConfigured, st) :=
  register_inscope env st i a ls ps h

/-- C8 witness: re-registering type 1 inside an open scope fails and the
prior record survives. -/
theorem claim_C8_witness :
    register envW stC8 1 (RegArg.cls 3) (some .Singleton) none =
      (.error .injectorAlreadyConfigured, stC8) ∧
    lookupA 1 stC8.registrations =
      some ⟨ClassOrFn.cls 2, some .Singleton, [], false⟩ :=
  ⟨claim_C8 envW stC8 1 (RegArg.cls 3) (some .Singleton) none rfl, rfl⟩

/-! ## Claim C9 -/

/-- C9: two consecutive successful `get_instance` calls on a type
registered with the PerRequest (transient) policy return distinct
objects — every call constructs a fresh instance. -/
theorem claim_C9 (env : Env) (st : St) (i : Nat) (reg : Registration)
    (c : Nat) (f1 f2 : Nat) (v1 v2 : Value) (st1 st2 : St)
    (hl : lookupA i st.registrations = some reg)
    (hf : reg.is_factory = false) (hls : reg.life_style = some .PerRequest)
    (hc : reg.class_type = .cls c)
    (h1 : get_instance env f1 st i = (.ok v1, st1))
    (h2 : get_instance env f2 st1 i = (.ok v2, st2)) :
    v1 ≠ v2 := by
  cases f1 with
  | zero => simp [get_instance] at h1
  | succ g1 =>
      rw [get_perRequest env g1 st i reg hl hf hls] at h1
      obtain ⟨j1, hv1, hlo1, hhi1⟩ := create_val env _
        (fun s t => get_presA env g1 s t) st i reg c v1 st1 hl hc h1
      cases f2 with
      | zero => simp [get_instance] at h2
      | succ g2 =>
          have hp1 : PresA st st1 := by
            have := create_presA env (fun s t => get_instance env g1 s t)
              (fun s t => get_presA env g1 s t) st i
            rw [h1] at this
            exact this
          have hl2 : lookupA i st1.registrations = some reg := by
            rw [hp1.1]
            exact hl
          rw [get_perRequest env g2 st1 i reg hl2 hf hls] at h2
          obtain ⟨j2, hv2, hlo2, _⟩ := create_val env _
            (fun s t => get_presA env g2 s t) st1 i reg c v2 st2 hl2 hc h2
          rw [hv1, hv2]
          intro he
          injection he with hee
          omega

/-- C9 witness: two consecutive transient resolutions of type 10 yield
the distinct objects 0 and 1. -/
theorem claim_C9_witness : (Value.obj 0 : Value) ≠ Value.obj 1 :=
  claim_C9 envW stC9 10 ⟨.cls 2, some .PerRequest, [], false⟩ 2 1 1
    (Value.obj 0) (Value.obj 1) (get_instance envW 1 stC9 10).2
    (get_instance envW 1 (get_instance envW 1 stC9 10).2 10).2
    rfl rfl rfl rfl rfl rfl

/-! ## Claim C6 -/

/-- C6: the invariant `the scoped cache is present iff the scope flag is
set` holds initially, is preserved by every public operation, and holds
after `with injector.scope(): body` for any body — in particular on the
exceptional exit path, because the teardown runs unconditionally. -/
theorem claim_C6 :
    ScInv St.init ∧
    (∀ (env : Env) (st : St) (op : Op), ScInv st → ScInv (step env st op)) ∧
    (∀ (α : Type) (st : St) (body : St → Except Err α × St)
       (r : Except Err α) (st' : St), ScInv st →
       withScope st body = (r, st') → ScInv st') := by
  refine ⟨rfl, fun env st op h => step_scinv env st op h, ?_⟩
  intro α st body r st' h hw
  unfold withScope at hw
  cases ho : openScope st with
  | mk ro sto =>
      rw [ho] at hw
      cases ro with
      | ok u =>
          have h2 : closeScope (body sto).2 = st' := congrArg Prod.snd hw
          rw [← h2]
          rfl
      | error e =>
          have hsto : sto = st := by
            by_cases hin : st.in_scope = true
            · rw [openScope_guard st hin] at ho
              exact (congrArg Prod.snd ho).symm
            · rw [openScope_idle st (by simpa using hin)] at ho
              simp at ho
          have h2 : sto = st' := congrArg Prod.snd hw
          rw [← h2, hsto]
          exact h

/-- C6 witness: a normal scope round trip from the initial state keeps
the invariant, and so does closing a scope on a state holding one. -/
theorem claim_C6_witness :
    ScInv St.init ∧ ScInv (step envW stC8 Op.closeScopeOp) :=
  ⟨claim_C6.2.2 Nat St.init (fun s => (Except.ok 0, s)) (Except.ok 0)
     St.init rfl rfl,
   claim_C6.2.1 envW stC8 Op.closeScopeOp rfl⟩

/-! ## Claim C10 -/

/-- C10: in every container state reachable from the initial state
through public operations, each stored registration is factory-mode with
no life style, or class-mode (a concrete class) with one of the three
enumeration values; consequently `get_instance` never reaches the
unknown-life-style `ValueError` branch from such a state. -/
theorem claim_C10 :
    RegWF St.init ∧
    (∀ (env : Env) (st : St) (op : Op), RegWF st → RegWF (step env st op)) ∧
    (∀ (env : Env) (ops : List Op), RegWF (run env ops St.init)) ∧
    (∀ (env : Env) (fuel : Nat) (st : St) (i : Nat), RegWF st →
      (get_instance env fuel st i).1 ≠ .error .valueError) := by
  have h0 : RegWF St.init := by
    intro p hp
    cases hp
  exact ⟨h0, fun env st op h => step_regwf env st op h,
    fun env ops => run_regwf env ops St.init h0,
    fun env fuel st i h => get_no_ve env fuel st i h⟩

/-- C10 witness: one registration step keeps the invariant, and the
concrete failing resolution of type 10 does not produce the
unknown-life-style error. -/
theorem claim_C10_witness :
    RegWF (step envW St.init
      (Op.registerOp 1 (RegArg.cls 2) (some .Singleton) none)) ∧
    (get_instance envW 5 stC2 10).1 ≠ .error .valueError :=
  ⟨claim_C10.2.1 envW St.init
     (Op.registerOp 1 (RegArg.cls 2) (some .Singleton) none) claim_C10.1,
   claim_C10.2.2.2 envW 5 stC2 10 (by unfold RegWF; decide)⟩

/-! ## Claim C4 -/

/-- C4: for a type registered with the Singleton policy at both calls,
any two successful `get_instance` calls return the identical object, no
matter which public operations — further resolutions of any kind, or
scope opens and closes — happen in between. -/
theorem claim_C4 (env : Env) (st : St) (i : Nat) (reg1 reg2 : Registration)
    (f1 f2 : Nat) (ops : List Op) (v1 v2 : Value) (st1 st2 : St)
    (hl1 : lookupA i st.registrations = some reg1)
    (hf1 : reg1.is_factory = false) (hls1 : reg1.life_style = some .Singleton)
    (h1 : get_instance env f1 st i = (.ok v1, st1))
    (hl2 : lookupA i (run env ops st1).registrations = some reg2)
    (hf2 : reg2.is_factory = false) (hls2 : reg2.life_style = some .Singleton)
    (h2 : get_instance env f2 (run env ops st1) i = (.ok v2, st2)) :
    v2 = v1 := by
  cases f1 with
  | zero => simp [get_instance] at h1
  | succ g1 =>
      have hpost := get_singleton_post env g1 st i reg1 v1 st1 hl1 hf1 hls1 h1
      have hmid := run_singleton_mono env ops st1 i v1 hpost
      cases f2 with
      | zero => simp [get_instance] at h2
      | succ g2 =>
          rw [get_singleton_hit env g2 (run env ops st1) i reg2 v1 hl2 hf2
            hls2 hmid] at h2
          simp only [Prod.mk.injEq] at h2
          exact (Except.ok.inj h2.1).symm

/-- C4 witness: a singleton resolved before and after a scope round trip
and an interleaved resolution is the same object 0. -/
theorem claim_C4_witness : (Value.obj 0 : Value) = Value.obj 0 :=
  claim_C4 envW stC4 10 ⟨.cls 2, some .Singleton, [], false⟩
    ⟨.cls 2, some .Singleton, [], false⟩ 1 1
    [Op.openScopeOp, Op.closeScopeOp, Op.getInstanceOp 1 10]
    (Value.obj 0) (Value.obj 0) (get_instance envW 1 stC4 10).2
    (get_instance envW 1 (run envW
      [Op.openScopeOp, Op.closeScopeOp, Op.getInstanceOp 1 10]
      (get_instance envW 1 stC4 10).2) 10).2
    rfl rfl rfl rfl rfl rfl rfl rfl

/-! ## Claim C5 -/

/-- C5: for a type registered with the Scoped policy, two successful
`get_instance` calls inside the same open scope (with any operations
other than closing the scope in between) return the identical object,
while a successful call made in a scope opened later — after arbitrary
intervening operations, which close the first scope — returns an object
distinct from the first scope's instance.  The two well-formedness
hypotheses (`RegWF`, `ScopedVUB`) hold in every reachable state. -/
theorem claim_C5 (env : Env) (st0 : St) (i : Nat)
    (reg0 reg3 : Registration) (c c3 : Nat)
    (f1 f2 f3 : Nat) (ops1 ops2 ops3 : List Op)
    (v1 v2 v3 : Value) (s1 s3 s7 : St)
    (hwf : RegWF st0)
    (hvub : ScopedVUB st0)
    (hreg : lookupA i st0.registrations = some reg0)
    (hf : reg0.is_factory = false) (hls : reg0.life_style = some .Scoped)
    (hcls : reg0.class_type = .cls c)
    (hin : st0.in_scope = true)
    (hc1 : get_instance env f1 st0 i = (.ok v1, s1))
    (hnc1 : ∀ op ∈ ops1, op ≠ Op.closeScopeOp)
    (hc2 : get_instance env f2 (run env ops1 s1) i = (.ok v2, s3))
    (hopen2 : (openScope (run env ops2 s3)).1 = .ok ())
    (hreg3 : lookupA i
      (run env ops3 (openScope (run env ops2 s3)).2).registrations =
      some reg3)
    (hf3 : reg3.is_factory = false) (hls3 : reg3.life_style = some .Scoped)
    (hcls3 : reg3.class_type = .cls c3)
    (hc3 : get_instance env f3
      (run env ops3 (openScope (run env ops2 s3)).2) i = (.ok v3, s7)) :
    v1 = v2 ∧ v3 ≠ v1 := by
  obtain ⟨g1, rfl⟩ : ∃ g, f1 = g + 1 := by
    cases f1 with
    | zero => simp [get_instance] at hc1
    | succ g => exact ⟨g, rfl⟩
  obtain ⟨g2, rfl⟩ : ∃ g, f2 = g + 1 := by
    cases f2 with
    | zero => simp [get_instance] at hc2
    | succ g => exact ⟨g, rfl⟩
  obtain ⟨g3, rfl⟩ : ∃ g, f3 = g + 1 := by
    cases f3 with
    | zero => simp [get_instance] at hc3
    | succ g => exact ⟨g, rfl⟩
  obtain ⟨sc1, hsc1, hv1in⟩ :=
    get_scoped_post env g1 st0 i reg0 v1 s1 hreg hf hls hc1
  have hp1 : PresA st0 s1 := by
    have := get_presA env (g1 + 1) st0 i
    rw [hc1] at this
    exact this
  have hin1 : s1.in_scope = true := hp1.2.1.trans hin
  have hrun := run_inscope env ops1 s1 hin1 hnc1
  have hreg2 : lookupA i (run env ops1 s1).registrations = some reg0 := by
    rw [hrun.1, hp1.1]
    exact hreg
  obtain ⟨sc2, hsc2, hv2in⟩ := hrun.2.2 sc1 i v1 hsc1 hv1in
  rw [get_scoped_hit env g2 (run env ops1 s1) i reg0 sc2 v1 hreg2 hf hls
    hsc2 hv2in] at hc2
  simp only [Prod.mk.injEq] at hc2
  have hAv : v1 = v2 := Except.ok.inj hc2.1
  have hs3 : run env ops1 s1 = s3 := hc2.2
  have hv1obj : ∃ j, v1 = Value.obj j ∧ j < s1.next_id := by
    rcases get_scoped_ok_cases env g1 st0 i reg0 v1 s1 hreg hf hls hc1 with
      ⟨sc0, hsc0, hv0, hst⟩ | ⟨sc0, stm, hsc0, hmiss, hcr, hnid⟩
    · obtain ⟨j, hj, hjlt⟩ := hvub sc0 hsc0 (i, v1) (lookupA_mem hv0)
      have hj' : v1 = Value.obj j := hj
      exact ⟨j, hj', by rw [hst]; exact hjlt⟩
    · obtain ⟨j, hj, hjlo, hjhi⟩ := create_val env _
        (fun s t => get_presA env g1 s t) st0 i reg0 c v1 stm hreg hcls hcr
      exact ⟨j, hj, hnid ▸ hjhi⟩
  obtain ⟨j1, hv1j, hj1lt⟩ := hv1obj
  have hj1n : j1 < (run env ops2 s3).next_id := by
    have m1 : s1.next_id ≤ (run env ops1 s1).next_id :=
      run_next_mono env ops1 s1
    have m2 : s3.next_id ≤ (run env ops2 s3).next_id :=
      run_next_mono env ops2 s3
    rw [hs3] at m1
    omega
  have hs4in : (run env ops2 s3).in_scope = false := by
    by_cases hh : (run env ops2 s3).in_scope = true
    · rw [openScope_guard _ hh] at hopen2
      simp at hopen2
    · simpa using hh
  have hs5 : (openScope (run env ops2 s3)).2 =
      { run env ops2 s3 with in_scope := true, scoped_cache := some [] } := by
    rw [openScope_idle _ hs4in]
  have hwf1 : RegWF s1 := RegWF_of_eq hp1.1 hwf
  have hwf3 : RegWF s3 := by
    rw [← hs3]
    exact run_regwf env ops1 s1 hwf1
  have hwf4 : RegWF (run env ops2 s3) := run_regwf env ops2 s3 hwf3
  have hwf5 : RegWF (openScope (run env ops2 s3)).2 := by
    rw [hs5]
    exact fun p hp => hwf4 p hp
  have hvlb5 : ScopedVLB (run env ops2 s3).next_id
      (openScope (run env ops2 s3)).2 := by
    rw [hs5]
    refine ⟨le_refl _, ?_⟩
    intro sc hsc p hp
    injection hsc with he
    rw [← he] at hp
    cases hp
  have hvlb6 := run_vlb env ops3 (run env ops2 s3).next_id
    (openScope (run env ops2 s3)).2 hwf5 hvlb5
  rcases get_scoped_ok_cases env g3
      (run env ops3 (openScope (run env ops2 s3)).2) i reg3 v3 s7
      hreg3 hf3 hls3 hc3 with
    ⟨sc6, hsc6, hv6, _⟩ | ⟨sc6, stm3, hsc6, hmiss3, hcr3, _⟩
  · obtain ⟨j3, hj3, hj3lo⟩ := hvlb6.2 sc6 hsc6 (i, v3) (lookupA_mem hv6)
    have hv3j : v3 = Value.obj j3 := hj3
    refine ⟨hAv, ?_⟩
    rw [hv3j, hv1j]
    intro he
    injection he with hee
    omega
  · obtain ⟨j3, hj3, hj3lo, _⟩ := create_val env _
      (fun s t => get_presA env g3 s t)
      (run env ops3 (openScope (run env ops2 s3)).2) i reg3 c3 v3 stm3
      hreg3 hcls3 hcr3
    have hs6n : (run env ops2 s3).next_id ≤
        (run env ops3 (openScope (run env ops2 s3)).2).next_id := hvlb6.1
    refine ⟨hAv, ?_⟩
    rw [hj3, hv1j]
    intro he
    injection he with hee
    omega

/-- C5 witness: with type 10 Scoped, two resolutions in the first scope
both yield object 0; after closing that scope and opening a second one,
the resolution yields the distinct object 1. -/
theorem claim_C5_witness :
    (Value.obj 0 : Value) = Value.obj 0 ∧
    (Value.obj 1 : Value) ≠ Value.obj 0 :=
  claim_C5 envW stC5 10 ⟨.cls 2, some .Scoped, [], false⟩
    ⟨.cls 2, some .Scoped, [], false⟩ 2 2 1 1 1 [] [Op.closeScopeOp] []
    (Value.obj 0) (Value.obj 0) (Value.obj 1)
    (get_instance envW 1 stC5 10).2
    (get_instance envW 1 (run envW [] (get_instance envW 1 stC5 10).2) 10).2
    (get_instance envW 1 (run envW []
      (openScope (run envW [Op.closeScopeOp]
        (get_instance envW 1 (run envW []
          (get_instance envW 1 stC5 10).2) 10).2)).2) 10).2
    (by unfold RegWF; decide)
    (by
      intro sc hsc
      injection hsc with he
      rw [← he]
      intro p hp
      cases hp)
    rfl rfl rfl rfl rfl rfl
    (fun op h => absurd h (List.not_mem_nil op))
    rfl rfl rfl rfl rfl rfl rfl

/-! ## Claim C3 -/

/-- C3: the source resolver equals the resolver written from the
specification's words — for each non-`self` constructor parameter: a
registered declared type is resolved by a recursive `get_instance`, else
a name found in the union of explicit parameters across all current
registrations supplies its literal, else the resolution fails with the
unregistered-dependency error.  Moreover, class-mode construction invokes
the constructor with the resolved dependencies overlaid by the
registration's own explicit parameters, and the overlay makes the
explicit parameters win over any previously resolved value with the same
name. -/
theorem claim_C3 :
    (∀ (env : Env) (recur : St → Nat → Except Err Value × St)
       (hints : List (Nat × Nat)) (st : St) (acc : List (Nat × Value)),
       resolve_constructor_dependencies env recur st hints acc =
         spec_resolve_params recur st
           (hints.filter (fun p => p.1 ≠ selfName)) acc) ∧
    (∀ (env : Env) (recur : St → Nat → Except Err Value × St) (st : St)
       (i : Nat) (reg : Registration) (c : Nat)
       (deps : List (Nat × Value)) (st1 : St),
       lookupA i st.registrations = some reg →
       reg.class_type = .cls c →
       resolve_constructor_dependencies env recur st (env.hints c) [] =
         (.ok deps, st1) →
       create_instance env recur st i =
         (.ok (Value.obj st1.next_id),
          { st1 with
             next_id := st1.next_id + 1
             heap := insertA st1.next_id ⟨c, updateAll deps reg.params⟩
               st1.heap })) ∧
    (∀ (k : Nat) (deps ps : List (Nat × Value)),
       (ps.map Prod.fst).Nodup →
       lookupA k (updateAll deps ps) =
         (match lookupA k ps with
          | some v => some v
          | none => lookupA k deps)) := by
  refine ⟨fun env recur hints st acc =>
    resolve_eq_spec env recur hints st acc, ?_,
    fun k deps ps h => lookupA_updateAll k ps deps h⟩
  intro env recur st i reg c deps st1 hl hc hres
  simp only [create_instance, hl, hc, hres]
  rfl

/-- C3 witness: constructing type 10 resolves `p5` by type to object 0
and then the registration's own explicit `p5 := 77` wins, so the new
object 1 is built with argument `p5 = 77`; the overlay lookup confirms
the explicit value beats the resolved one. -/
theorem claim_C3_witness :
    (create_instance envW (fun s t => get_instance envW 1 s t) stC3 10).1 =
      .ok (Value.obj 1) ∧
    lookupA 5 (updateAll [(5, Value.obj 0)] [(5, Value.lit 77)]) =
      some (Value.lit 77) :=
  ⟨congrArg Prod.fst (claim_C3.2.1 envW (fun s t => get_instance envW 1 s t)
     stC3 10 ⟨.cls 3, some .PerRequest, [(5, Value.lit 77)], false⟩ 3
     [(5, Value.obj 0)]
     (resolve_constructor_dependencies envW
       (fun s t => get_instance envW 1 s t) stC3 (envW.hints 3) []).2
     rfl rfl rfl),
   by
     rw [claim_C3.2.2 5 [(5, Value.obj 0)] [(5, Value.lit 77)] (by decide)]
     rfl⟩
